import Mathlib

/-!
Verification development for the curation-and-publishing pipeline in
`src/main.py` (a Telegram modpack-curation bot).

Shallow embedding conventions:
* Python floats (Unix timestamps) are embedded as `ℚ`: every finite float is
  an exact rational, float comparison agrees with rational comparison, and
  Python's `json` module round-trips finite floats exactly.
* The persisted queue file `queue.json` is embedded as a `FileContent` value:
  missing, corrupt (unparseable), or a JSON document.  `json.dump`/`json.load`
  are embedded as `encodeQueue`/decoding into the same JSON AST.
* Python `set` objects are embedded as `Finset String`.
* Effectful collaborator calls (text generation, image download, Telegram
  delivery) are embedded as explicit parameters/oracles of the functions that
  perform them.
-/

/-- Embeds the dataclass `Modpack` of `src/main.py` (lines 59-75). -/
structure Modpack where
  title : String
  description : String
  minecraft_version : String
  image_url : Option String
  gallery_urls : List String
  download_url : String
  platform : String
  categories : List String
  loaders : List String
  slug : String
  project_id : String
  versions_info : String
deriving DecidableEq

/-- Embeds `Modpack.get_id` (line 74): `f"{self.platform}:{self.slug}"`. -/
def Modpack.get_id (m : Modpack) : String := m.platform ++ (":") ++ m.slug

/-- Embeds the dataclass `QueuedPost` (lines 78-85).  `scheduled_time` is a
Unix timestamp float, embedded as `ℚ`. -/
structure QueuedPost where
  text : String
  image_path : Option String
  download_url : String
  scheduled_time : ℚ
  pack_id : String
  title : String
deriving DecidableEq

/-- A JSON value, as produced/consumed by Python's `json` module.  Numbers are
embedded as `ℚ` (ints and finite floats are exact rationals and round-trip). -/
inductive Json where
  | null : Json
  | str : String → Json
  | num : ℚ → Json
  | arr : List Json → Json
  | obj : List (String × Json) → Json

/-- The state of the persisted queue file `queue.json`: absent/empty file,
unparseable content, or a parsed JSON document. -/
inductive FileContent where
  | missing : FileContent
  | corrupt : FileContent
  | json : Json → FileContent

/-- File-system operations performed by the queue persistence layer, used to
state which write strategy `PostQueue.save` employs.  `openTruncWrite p c` is
Python's `open(p, 'w')` followed by writing the serialization of `c` (an
in-place truncating write); `rename src dst` is an atomic rename. -/
inductive FsOp where
  | openTruncWrite : String → Json → FsOp
  | rename : String → String → FsOp

/-- Embeds `QUEUE_FILE = "queue.json"` (line 43). -/
def QUEUE_FILE : String := "queue.json"

/-- Embeds `asdict` on a `QueuedPost` followed by `json.dump`: one JSON object with
the six dataclass fields, `None` becoming JSON null. -/
def encodeQueuedPost (p : QueuedPost) : Json :=
  Json.obj
    [(("text"), Json.str p.text),
     (("image_path"), match p.image_path with
       | none => Json.null
       | some s => Json.str s),
     (("download_url"), Json.str p.download_url),
     (("scheduled_time"), Json.num p.scheduled_time),
     (("pack_id"), Json.str p.pack_id),
     (("title"), Json.str p.title)]

/-- The JSON document `PostQueue.save` writes for a queue (line 351):
a JSON array of the encoded posts. -/
def encodeQueue (queue : List QueuedPost) : Json :=
  Json.arr (queue.map encodeQueuedPost)

/-- The keyword names accepted by `QueuedPost(**item)`: exactly the six
dataclass fields, none with a default. -/
def queuedPostKeys : List String :=
  [("text"), ("image_path"), ("download_url"), ("scheduled_time"),
   ("pack_id"), ("title")]

def decodeStrField : Json → Option String
  | Json.str s => some s
  | _ => none

def decodeOptStrField : Json → Option (Option String)
  | Json.null => some none
  | Json.str s => some (some s)
  | _ => none

def decodeNumField : Json → Option ℚ
  | Json.num q => some q
  | _ => none

/-- Embeds `QueuedPost(**item)` (line 342): succeeds only when `item` is a JSON
object whose keys are exactly the six dataclass fields (an extra or missing
keyword raises `TypeError`).  Field values are decoded at the dataclass field
types; this is the typed shallow embedding of the loader (Python would accept
ill-typed field values without checking, but every file written by
`PostQueue.save` is well-typed, and `load` only ever succeeds on such files). -/
def decodeQueuedPost : Json → Option QueuedPost
  | Json.obj fields =>
    if fields.all (fun kv => queuedPostKeys.contains kv.1) then
      match fields.lookup ("text"), fields.lookup ("image_path"),
            fields.lookup ("download_url"), fields.lookup ("scheduled_time"),
            fields.lookup ("pack_id"), fields.lookup ("title") with
      | some jt, some ji, some jd, some js, some jp, some jl =>
        match decodeStrField jt, decodeOptStrField ji, decodeStrField jd,
              decodeNumField js, decodeStrField jp, decodeStrField jl with
        | some t, some i, some d, some s, some pk, some ti =>
          some ⟨t, i, d, s, pk, ti⟩
        | _, _, _, _, _, _ => none
      | _, _, _, _, _, _ => none
    else none
  | _ => none

/-- The list comprehension `[QueuedPost(**item) for item in data]` (line 342):
decodes elements in order, the first failure aborting the whole load. -/
def decodeQueueItems : List Json → Option (List QueuedPost)
  | [] => some []
  | j :: rest =>
    match decodeQueuedPost j, decodeQueueItems rest with
    | some p, some l => some (p :: l)
    | _, _ => none

/-- Decoding the whole document: `json.load` must yield a list, then each
item is decoded; any failure is caught by the handler at line 343. -/
def decodeQueue : Json → Option (List QueuedPost)
  | Json.arr items => decodeQueueItems items
  | _ => none

/-- Embeds `PostQueue.load` (lines 335-345): a missing/empty file is the empty queue;
any parse or construction error is logged and yields the empty queue. -/
def PostQueue.load : FileContent → List QueuedPost
  | FileContent.missing => []
  | FileContent.corrupt => []
  | FileContent.json j => (decodeQueue j).getD []

/-- The file content left by a completed `PostQueue.save` (lines 347-353). -/
def PostQueue.saveContent (queue : List QueuedPost) : FileContent :=
  FileContent.json (encodeQueue queue)

/-- The file-system operations `PostQueue.save` performs: a single in-place
truncating write of the serialized queue to `QUEUE_FILE` (line 350). -/
def PostQueue.saveOps (queue : List QueuedPost) : List FsOp :=
  [FsOp.openTruncWrite QUEUE_FILE (encodeQueue queue)]

/-- Embeds `PostQueue.add_post` (lines 355-359): load, append, save. -/
def PostQueue.add_post (fc : FileContent) (post : QueuedPost) : FileContent :=
  PostQueue.saveContent (PostQueue.load fc ++ [post])

/-- The loop of `PostQueue.get_due_posts` (lines 364-370): each post is
appended to `due` when `scheduled_time <= now`, else to `remaining`. -/
def partitionDue (queue : List QueuedPost) (now : ℚ) :
    List QueuedPost × List QueuedPost :=
  queue.foldl
    (fun acc post =>
      if post.scheduled_time ≤ now then (acc.1 ++ [post], acc.2)
      else (acc.1, acc.2 ++ [post]))
    ([], [])

/-- Embeds `PostQueue.get_due_posts` (lines 361-373): load, partition, save
`remaining` only when `due` is non-empty, return `due`.  The result records
the returned due list, the resulting file state, and the write operations
performed. -/
def PostQueue.get_due_posts (fc : FileContent) (now : ℚ) :
    List QueuedPost × FileContent × List FsOp :=
  let queue := PostQueue.load fc
  let pr := partitionDue queue now
  if pr.1.isEmpty then (pr.1, fc, [])
  else (pr.1, PostQueue.saveContent pr.2, PostQueue.saveOps pr.2)

-- Round-trip lemmas for the queue persistence layer.

theorem decodeQueuedPost_encodeQueuedPost (p : QueuedPost) :
    decodeQueuedPost (encodeQueuedPost p) = some p := by
  cases p with
  | mk t i d s pk ti => cases i <;> rfl

theorem decodeQueueItems_map_encode (l : List QueuedPost) :
    decodeQueueItems (l.map encodeQueuedPost) = some l := by
  induction l with
  | nil => rfl
  | cons p rest ih =>
    simp [decodeQueueItems, decodeQueuedPost_encodeQueuedPost, ih]

theorem load_saveContent (queue : List QueuedPost) :
    PostQueue.load (PostQueue.saveContent queue) = queue := by
  simp [PostQueue.load, PostQueue.saveContent, encodeQueue, decodeQueue,
    decodeQueueItems_map_encode]

/-- Whether a sequence of file operations realizes write-to-temp-then-rename
into `target`: no in-place truncating write ever touches `target`, and the
sequence ends with a rename into `target`. -/
def usesTempRename (ops : List FsOp) (target : String) : Bool :=
  (ops.all fun op =>
    match op with
    | FsOp.openTruncWrite p _ => !(p == target)
    | FsOp.rename _ _ => true) &&
  (match ops.getLast? with
   | some (FsOp.rename _ dst) => dst == target
   | _ => false)

/-- Crash semantics of a single file operation: interrupting an in-place
truncating write of `queue.json` leaves the file truncated/partially written,
i.e. unparseable; a rename is atomic and leaves the previous content. -/
def crashDuringWrite (fc : FileContent) : FsOp → FileContent
  | FsOp.openTruncWrite p _ => if p = QUEUE_FILE then FileContent.corrupt else fc
  | FsOp.rename _ _ => fc

/-- Embeds `get_next_schedule_time` (lines 375-387).  The current local time is
embedded as day number `d` and time-of-day `t` in seconds (`0 ≤ t < 86400`,
fractional seconds allowed); `now.replace(hour=h, ...)` is day `d` at `h:00`,
`now + timedelta(days=1)` moves to day `d+1`, and `.timestamp()` is the
instant `day * 86400 + timeOfDay` on this axis. -/
def get_next_schedule_time (d : ℕ) (t : ℚ) : ℚ :=
  if t < 43200 then (d : ℚ) * 86400 + 43200
  else if t < 64800 then (d : ℚ) * 86400 + 64800
  else ((d : ℚ) + 1) * 86400 + 43200

/-- Embeds the state of `ModpackFinder` (lines 87-108): the durable
append-only log file `posted_packs.txt` as its list of lines, and the
in-memory `posted_packs` set. -/
structure ModpackFinder where
  posted_file : List String
  posted_packs : Finset String

/-- Embeds `ModpackFinder.load_posted_packs` (lines 95-100): the set of lines of the
log file (a missing file is the empty set). -/
def load_posted_packs (lines : List String) : Finset String :=
  lines.toFinset

/-- Embeds `ModpackFinder.save_posted_pack` (lines 102-105): append the id to the
log file and add it to the in-memory set. -/
def ModpackFinder.save_posted_pack (f : ModpackFinder) (pack_id : String) :
    ModpackFinder :=
  { posted_file := f.posted_file ++ [pack_id],
    posted_packs := insert pack_id f.posted_packs }

/-- Embeds `ModpackFinder.is_pack_posted` (lines 107-108). -/
def ModpackFinder.is_pack_posted (f : ModpackFinder) (pack_id : String) :
    Bool :=
  pack_id ∈ f.posted_packs

/-- Embeds `UserSession` (lines 409-434). -/
structure UserSession where
  modpacks : List Modpack
  current_index : ℕ
  current_pack : Option Modpack
deriving DecidableEq

/-- Embeds `UserSession.__init__` (lines 410-413). -/
def UserSession.init : UserSession := ⟨[], 0, none⟩

/-- Embeds `UserSession._update_current` (lines 427-431). -/
def UserSession.update_current (s : UserSession) : UserSession :=
  if s.modpacks ≠ [] ∧ s.current_index < s.modpacks.length then
    { s with current_pack := s.modpacks[s.current_index]? }
  else
    { s with current_pack := none }

/-- Embeds `UserSession.set_results` (lines 415-418). -/
def UserSession.set_results (s : UserSession) (packs : List Modpack) :
    UserSession :=
  UserSession.update_current { s with modpacks := packs, current_index := 0 }

/-- Embeds `UserSession.has_next` (lines 433-434): Python computes
`current_index < len(modpacks) - 1` over `int`; since `current_index ≥ 0`,
truncated `ℕ` subtraction agrees (for an empty list both sides are false). -/
def UserSession.has_next (s : UserSession) : Bool :=
  s.current_index < s.modpacks.length - 1

/-- Embeds `UserSession.next` (lines 420-425): returns the mutated session and the
Python return value (the new current pack, or `None` when already at the
end, in which case the session is unchanged). -/
def UserSession.next (s : UserSession) : UserSession × Option Modpack :=
  if s.current_index < s.modpacks.length - 1 then
    let s' := UserSession.update_current
      { s with current_index := s.current_index + 1 }
    (s', s'.current_pack)
  else (s, none)

/-- A sequence of `n` calls to `UserSession.next`, keeping the session. -/
def UserSession.advanceN : ℕ → UserSession → UserSession
  | 0, s => s
  | n + 1, s => UserSession.advanceN n (UserSession.next s).1

/-- The callback-data labels dispatched by `button_callback` (lines 555-673). -/
inductive BotAction where
  | publish : BotAction
  | publish_now : BotAction
  | reject : BotAction
  | regenerate : BotAction
  | edit : BotAction
deriving DecidableEq

/-- The operator-visible outcome of one `button_callback` invocation. -/
inductive BotOutput where
  | staleSession : BotOutput
  | queuedConfirm : BotOutput
  | publishedConfirm : BotOutput
  | publishError : BotOutput
  | rejected : BotOutput
  | regenerated : BotOutput
  | editPrompt : BotOutput
deriving DecidableEq

/-- The mutable program state touched by `button_callback`: the global
`finder` (dedup store), the persisted queue file, the operator's session,
and `context.user_data['editing_pack']`. -/
structure BotState where
  finder : ModpackFinder
  queueFc : FileContent
  session : UserSession
  editing_pack : Option Modpack

/-- The `if session.has_next(): session.next()` step shared by the `publish`,
`publish_now` and `reject` branches (lines 586-587, 637-638, 652-653);
otherwise only a terminal message is sent and the session is unchanged. -/
def advanceIfHasNext (st : BotState) : BotState :=
  if st.session.has_next then { st with session := (st.session.next).1 }
  else st

/-- Embeds `button_callback` (lines 541-673), with the effectful collaborator calls
embedded as parameters: `genText` is the text produced by
`generate_post_text`, `slotTime` the value of `get_next_schedule_time()`,
`imgPath` the result of `download_image` (`none` when there is no image URL
or the download fails), and `transportOk` whether the `try` body of the
`publish_now` branch reaches the end of its delivery call without raising
(steps after the delivery call are modelled as not raising).  The guard at
lines 548-550 returns a stale-session message and performs no mutation. -/
def button_callback (st : BotState) (action : BotAction) (genText : String)
    (slotTime : ℚ) (imgPath : Option String) (transportOk : Bool) :
    BotState × BotOutput :=
  match st.session.current_pack with
  | none => (st, BotOutput.staleSession)
  | some pack =>
    match action with
    | BotAction.publish =>
      let queued : QueuedPost :=
        { text := genText, image_path := imgPath,
          download_url := pack.download_url, scheduled_time := slotTime,
          pack_id := pack.get_id, title := pack.title }
      let st' := { st with
        queueFc := PostQueue.add_post st.queueFc queued,
        finder := st.finder.save_posted_pack pack.get_id }
      (advanceIfHasNext st', BotOutput.queuedConfirm)
    | BotAction.publish_now =>
      if transportOk then
        let st' := { st with finder := st.finder.save_posted_pack pack.get_id }
        (advanceIfHasNext st', BotOutput.publishedConfirm)
      else (st, BotOutput.publishError)
    | BotAction.reject =>
      let st' := { st with finder := st.finder.save_posted_pack pack.get_id }
      (advanceIfHasNext st', BotOutput.rejected)
    | BotAction.regenerate => (st, BotOutput.regenerated)
    | BotAction.edit =>
      ({ st with editing_pack := some pack }, BotOutput.editPrompt)

/-- Embeds `check_queue_callback` (lines 723-757): drain the due posts, then attempt
delivery of each in order; a delivery failure is logged and the loop proceeds
(lines 756-757).  `deliverOk` is the delivery oracle (whether the transport
call for a given post succeeds); the loop never touches the queue file, so
the resulting file state is the one left by `get_due_posts`.  Returns the
file state, the delivered posts and the failed posts. -/
def check_queue_callback (fc : FileContent) (now : ℚ)
    (deliverOk : QueuedPost → Bool) :
    FileContent × List QueuedPost × List QueuedPost :=
  let res := PostQueue.get_due_posts fc now
  let due := res.1
  (res.2.1, due.filter deliverOk, due.filter fun p => !(deliverOk p))

/-- The accumulator loop of `get_due_posts` computes the two filters of the
queue, in original relative order. -/
theorem partitionDue_eq (queue : List QueuedPost) (now : ℚ) :
    partitionDue queue now =
      (queue.filter fun p => decide (p.scheduled_time ≤ now),
       queue.filter fun p => !(decide (p.scheduled_time ≤ now))) := by
  suffices h : ∀ d r : List QueuedPost,
      queue.foldl
        (fun acc post =>
          if post.scheduled_time ≤ now then (acc.1 ++ [post], acc.2)
          else (acc.1, acc.2 ++ [post]))
        (d, r) =
      (d ++ queue.filter fun p => decide (p.scheduled_time ≤ now),
       r ++ queue.filter fun p => !(decide (p.scheduled_time ≤ now))) by
    simpa [partitionDue] using h [] []
  induction queue with
  | nil => intro d r; simp
  | cons p rest ih =>
    intro d r
    simp only [List.foldl_cons]
    by_cases hp : p.scheduled_time ≤ now
    · rw [if_pos hp, ih]
      simp [List.filter_cons, hp]
    · rw [if_neg hp, ih]
      simp [List.filter_cons, hp]

/-- Shared specification of `get_due_posts`: the returned posts, the
persisted complement, the permutation fact, and the no-rewrite case. -/
theorem getDuePosts_spec (fc : FileContent) (now : ℚ) :
    (PostQueue.get_due_posts fc now).1 =
      (PostQueue.load fc).filter (fun p => decide (p.scheduled_time ≤ now)) ∧
    PostQueue.load (PostQueue.get_due_posts fc now).2.1 =
      (PostQueue.load fc).filter (fun p => !(decide (p.scheduled_time ≤ now))) ∧
    List.Perm
      ((PostQueue.get_due_posts fc now).1 ++
        (PostQueue.load fc).filter (fun p => !(decide (p.scheduled_time ≤ now))))
      (PostQueue.load fc) ∧
    ((PostQueue.get_due_posts fc now).1 = [] →
      (PostQueue.get_due_posts fc now).2 = (fc, [])) := by
  have hpart := partitionDue_eq (PostQueue.load fc) now
  by_cases hdue :
      (PostQueue.load fc).filter (fun p => decide (p.scheduled_time ≤ now)) = []
  · have hres : PostQueue.get_due_posts fc now =
        ((PostQueue.load fc).filter (fun p => decide (p.scheduled_time ≤ now)),
          fc, []) := by
      simp [PostQueue.get_due_posts, hpart, hdue]
    have hrem : (PostQueue.load fc).filter
        (fun p => !(decide (p.scheduled_time ≤ now))) = PostQueue.load fc := by
      refine List.filter_eq_self.mpr ?_
      intro a ha
      have := List.filter_eq_nil_iff.mp hdue a ha
      simpa using this
    refine ⟨by rw [hres], ?_, ?_, ?_⟩
    · rw [hres, hrem]
    · rw [hres, hdue, hrem]
      simp
    · intro _
      rw [hres]
  · have hne : ((PostQueue.load fc).filter
        (fun p => decide (p.scheduled_time ≤ now))).isEmpty = false := by
      cases hfe : ((PostQueue.load fc).filter
          (fun p => decide (p.scheduled_time ≤ now))).isEmpty
      · rfl
      · exact absurd (List.isEmpty_iff.mp hfe) hdue
    have hres : PostQueue.get_due_posts fc now =
        ((PostQueue.load fc).filter (fun p => decide (p.scheduled_time ≤ now)),
          PostQueue.saveContent ((PostQueue.load fc).filter
            (fun p => !(decide (p.scheduled_time ≤ now)))),
          PostQueue.saveOps ((PostQueue.load fc).filter
            (fun p => !(decide (p.scheduled_time ≤ now))))) := by
      simp [PostQueue.get_due_posts, hpart, hne]
    refine ⟨by rw [hres], ?_, ?_, ?_⟩
    · rw [hres]
      exact load_saveContent _
    · rw [hres]
      exact List.filter_append_perm _ _
    · intro hzero
      rw [hres] at hzero
      exact absurd hzero hdue

/-- C1: for every persisted queue file and every `now`, `get_due_posts now`
returns exactly the posts with `scheduled_time ≤ now` in original order; the
persisted queue afterwards contains exactly the complement
(`scheduled_time > now`) in original order; the due posts and the remaining
posts together are a permutation of the original queue (no post duplicated or
lost); and when no post is due the file is left untouched and no write
operation is performed. -/
theorem get_due_posts_drain_partition (fc : FileContent) (now : ℚ) :
    (PostQueue.get_due_posts fc now).1 =
      (PostQueue.load fc).filter (fun p => decide (p.scheduled_time ≤ now)) ∧
    PostQueue.load (PostQueue.get_due_posts fc now).2.1 =
      (PostQueue.load fc).filter (fun p => !(decide (p.scheduled_time ≤ now))) ∧
    List.Perm
      ((PostQueue.get_due_posts fc now).1 ++
        (PostQueue.load fc).filter (fun p => !(decide (p.scheduled_time ≤ now))))
      (PostQueue.load fc) ∧
    ((PostQueue.get_due_posts fc now).1 = [] →
      (PostQueue.get_due_posts fc now).2 = (fc, [])) :=
  getDuePosts_spec fc now

/-- A concrete queued post scheduled at time 100, used as witness input. -/
def examplePost : QueuedPost :=
  ⟨("txt"), none, ("url"), 100, ("modrinth:a"), ("T")⟩

/-- A persisted queue file holding exactly `examplePost`. -/
def exampleFc : FileContent := PostQueue.saveContent [examplePost]

/-- C1 witness: at `now = 50` nothing in `exampleFc` is due, the drain
returns no posts, and the persisted state is untouched with no write. -/
theorem get_due_posts_drain_partition_witness :
    (PostQueue.get_due_posts exampleFc 50).2 = (exampleFc, []) ∧
    (PostQueue.get_due_posts exampleFc 50).1 = [] :=
  ⟨(get_due_posts_drain_partition exampleFc 50).2.2.2 (by rfl), by rfl⟩

/-- C8: enqueuing any list of posts one by one via `add_post` and then
reloading the queue from the persisted file yields the previously stored
posts followed by exactly the enqueued posts, in order, with every field of
every post preserved (content-for-content equality). -/
theorem enqueue_reload_roundtrip (posts : List QueuedPost) (fc : FileContent) :
    PostQueue.load (posts.foldl PostQueue.add_post fc) =
      PostQueue.load fc ++ posts := by
  induction posts generalizing fc with
  | nil => simp
  | cons p rest ih =>
    simp only [List.foldl_cons]
    rw [ih]
    simp [PostQueue.add_post, load_saveContent]

/-- C2: for every current local time (day `d`, time-of-day `t` seconds),
`get_next_schedule_time` returns an instant strictly after now whose
time-of-day is one of exactly the two canonical slots (12:00 = 43200 s or
18:00 = 64800 s): slot 12:00 today if now precedes it, else slot 18:00 today
if now precedes it, else slot 12:00 on the following day. -/
theorem next_schedule_time_slots (d : ℕ) (t : ℚ) (_h0 : 0 ≤ t)
    (h1 : t < 86400) :
    (d : ℚ) * 86400 + t < get_next_schedule_time d t ∧
    (get_next_schedule_time d t = (d : ℚ) * 86400 + 43200 ∨
     get_next_schedule_time d t = (d : ℚ) * 86400 + 64800 ∨
     get_next_schedule_time d t = ((d : ℚ) + 1) * 86400 + 43200) ∧
    (t < 43200 → get_next_schedule_time d t = (d : ℚ) * 86400 + 43200) ∧
    (¬ t < 43200 → t < 64800 →
      get_next_schedule_time d t = (d : ℚ) * 86400 + 64800) ∧
    (¬ t < 64800 →
      get_next_schedule_time d t = ((d : ℚ) + 1) * 86400 + 43200) := by
  unfold get_next_schedule_time
  by_cases ha : t < 43200
  · rw [if_pos ha]
    exact ⟨by linarith, Or.inl rfl, fun _ => rfl, fun hc => absurd ha hc,
      fun hc => absurd (show t < 64800 by linarith) hc⟩
  · rw [if_neg ha]
    by_cases hb : t < 64800
    · rw [if_pos hb]
      exact ⟨by linarith, Or.inr (Or.inl rfl), fun hc => absurd hc ha,
        fun _ _ => rfl, fun hc => absurd hb hc⟩
    · rw [if_neg hb]
      exact ⟨by linarith, Or.inr (Or.inr rfl), fun hc => absurd hc ha,
        fun _ hc => absurd hc hb, fun _ => rfl⟩

/-- C2 witness: at day 0, 50000 s (13:53:20, past the 12:00 slot), the next
slot is 18:00 the same day and is strictly after now. -/
theorem next_schedule_time_slots_witness :
    (0 : ℚ) * 86400 + 50000 < get_next_schedule_time 0 50000 ∧
    get_next_schedule_time 0 50000 = (0 : ℚ) * 86400 + 64800 :=
  ⟨(next_schedule_time_slots 0 50000 (by norm_num) (by norm_num)).1,
   (next_schedule_time_slots 0 50000 (by norm_num) (by norm_num)).2.2.2.1
     (by norm_num) (by norm_num)⟩

/-- C3: marking an id twice and then querying membership yields `true`; the
durable log then contains the id twice, yet membership of the reconstructed
set depends only on the presence of an id among the log lines, not on how
many times it occurs. -/
theorem mark_idempotent_membership (f : ModpackFinder) (x : String) :
    ((f.save_posted_pack x).save_posted_pack x).is_pack_posted x = true ∧
    ((f.save_posted_pack x).save_posted_pack x).posted_file =
      f.posted_file ++ [x, x] ∧
    (∀ (lines : List String) (y : String),
      y ∈ load_posted_packs lines ↔ y ∈ lines) := by
  refine ⟨?_, by simp [ModpackFinder.save_posted_pack], ?_⟩
  · simp [ModpackFinder.is_pack_posted, ModpackFinder.save_posted_pack]
  · intro lines y
    simp [load_posted_packs]

/-- The invariant of a review session whose result set is `packs`: the cursor
never passes the last valid index (position 0 for an empty set), and the
cached current pack is the element at the cursor. -/
def sessionInv (packs : List Modpack) (s : UserSession) : Prop :=
  s.modpacks = packs ∧ s.current_index ≤ packs.length - 1 ∧
  s.current_pack = packs[s.current_index]?

theorem set_results_inv (s : UserSession) (packs : List Modpack) :
    sessionInv packs (s.set_results packs) := by
  unfold UserSession.set_results UserSession.update_current sessionInv
  by_cases h : packs ≠ [] ∧ 0 < packs.length
  · rw [if_pos h]
    exact ⟨rfl, Nat.zero_le _, rfl⟩
  · rw [if_neg h]
    refine ⟨rfl, Nat.zero_le _, ?_⟩
    have hnil : packs = [] := by
      by_contra hne
      exact h ⟨hne, List.length_pos.mpr hne⟩
    subst hnil
    rfl

theorem next_inv (packs : List Modpack) (s : UserSession)
    (h : sessionInv packs s) : sessionInv packs (s.next).1 := by
  obtain ⟨hm, hi, hc⟩ := h
  unfold UserSession.next
  by_cases hlt : s.current_index < s.modpacks.length - 1
  · rw [if_pos hlt]
    have hlen : s.current_index + 1 < s.modpacks.length := by omega
    have hne : s.modpacks ≠ [] := by
      intro hnil
      rw [hnil] at hlen
      exact absurd hlen (by simp)
    show sessionInv packs
      (UserSession.update_current { s with current_index := s.current_index + 1 })
    unfold UserSession.update_current
    rw [if_pos ⟨hne, hlen⟩]
    subst hm
    refine ⟨rfl, ?_, rfl⟩
    show s.current_index + 1 ≤ s.modpacks.length - 1
    omega
  · rw [if_neg hlt]
    exact ⟨hm, hi, hc⟩

theorem advanceN_inv (packs : List Modpack) (n : ℕ) (s : UserSession)
    (h : sessionInv packs s) : sessionInv packs (UserSession.advanceN n s) := by
  induction n generalizing s with
  | zero => exact h
  | succ k ih => exact ih _ (next_inv packs s h)

/-- C4: for every result set placed into a session and every number of
`next` calls, the cursor never exceeds the length of the result set, and
`has_next` returns `false` exactly when the cursor sits at the last valid
index (for the empty result set the cursor stays at 0, where `has_next` is
also `false`). -/
theorem session_cursor_bound (s : UserSession) (packs : List Modpack)
    (n : ℕ) :
    (UserSession.advanceN n (s.set_results packs)).current_index ≤
      (UserSession.advanceN n (s.set_results packs)).modpacks.length ∧
    ((UserSession.advanceN n (s.set_results packs)).has_next = false ↔
      ((UserSession.advanceN n (s.set_results packs)).modpacks = [] ∨
       (UserSession.advanceN n (s.set_results packs)).current_index =
         (UserSession.advanceN n (s.set_results packs)).modpacks.length - 1)) := by
  obtain ⟨hm, hi, hc⟩ :=
    advanceN_inv packs n (s.set_results packs) (set_results_inv s packs)
  rw [hm]
  constructor
  · omega
  · unfold UserSession.has_next
    rw [hm]
    constructor
    · intro hfalse
      have hnot : ¬ ((UserSession.advanceN n (s.set_results packs)).current_index
          < packs.length - 1) := by
        simpa using hfalse
      right
      omega
    · intro hor
      rcases hor with hnil | hlast
      · subst hnil
        simp at hi
        simp [hi]
      · simp [hlast]

/-- C9: for every non-empty result set placed into a session, after any
number of `next` calls the cursor is still a valid index, and the current
item is the element at the cursor — in particular it is never `none`: the
session only lacks a current item when the result set is empty. -/
theorem session_current_always_defined (s : UserSession)
    (packs : List Modpack) (n : ℕ) (hne : packs ≠ []) :
    (UserSession.advanceN n (s.set_results packs)).current_index <
      packs.length ∧
    (UserSession.advanceN n (s.set_results packs)).current_pack =
      packs[(UserSession.advanceN n (s.set_results packs)).current_index]? ∧
    (UserSession.advanceN n (s.set_results packs)).current_pack.isSome =
      true := by
  obtain ⟨hm, hi, hc⟩ :=
    advanceN_inv packs n (s.set_results packs) (set_results_inv s packs)
  have hpos : 0 < packs.length := List.length_pos.mpr hne
  have hlt : (UserSession.advanceN n (s.set_results packs)).current_index <
      packs.length := by omega
  refine ⟨hlt, hc, ?_⟩
  rw [hc, List.getElem?_eq_getElem hlt]
  rfl

/-- A concrete modpack used as witness input. -/
def exampleModpack : Modpack :=
  ⟨("Isle"), ("desc"), ("1.20"), none, [], ("dl"), ("modrinth"), [], [],
   ("isle"), ("pid"), ("v")⟩

/-- C9 witness: with the one-element result set `[exampleModpack]`, after two
`next` calls the current item is still `exampleModpack`. -/
theorem session_current_always_defined_witness :
    (UserSession.advanceN 2
      (UserSession.init.set_results [exampleModpack])).current_pack.isSome =
      true ∧
    (UserSession.advanceN 2
      (UserSession.init.set_results [exampleModpack])).current_pack =
      some exampleModpack :=
  ⟨(session_current_always_defined UserSession.init [exampleModpack] 2
      (by simp)).2.2, by rfl⟩

/-- C5: the poller removes due posts from the persisted queue before
attempting delivery: after a tick, the persisted queue holds exactly the
not-yet-due posts, the persisted state does not depend on the delivery
outcomes, and no post handed to the transport is ever back in the persisted
queue — delivery failures are only collected and do not re-queue. -/
theorem poller_never_requeues (fc : FileContent) (now : ℚ)
    (deliverOk deliverOk' : QueuedPost → Bool) :
    PostQueue.load (check_queue_callback fc now deliverOk).1 =
      (PostQueue.load fc).filter
        (fun p => !(decide (p.scheduled_time ≤ now))) ∧
    (check_queue_callback fc now deliverOk).1 =
      (check_queue_callback fc now deliverOk').1 ∧
    (∀ p ∈ (PostQueue.get_due_posts fc now).1,
      p ∉ PostQueue.load (check_queue_callback fc now deliverOk).1) := by
  obtain ⟨hdue, hrem, _, _⟩ := getDuePosts_spec fc now
  have hst : (check_queue_callback fc now deliverOk).1 =
      (PostQueue.get_due_posts fc now).2.1 := rfl
  refine ⟨by rw [hst]; exact hrem, rfl, ?_⟩
  intro p hp hmem
  rw [hst, hrem] at hmem
  rw [hdue] at hp
  have h1 := (List.mem_filter.mp hp).2
  have h2 := (List.mem_filter.mp hmem).2
  rw [h1] at h2
  exact absurd h2 (by simp)

/-- C5 witness: `examplePost` (scheduled at 100) is due at `now = 200`; with
a transport that fails every delivery, the post is handed out, the failure is
recorded, and the persisted queue no longer contains the post. -/
theorem poller_never_requeues_witness :
    examplePost ∈ (PostQueue.get_due_posts exampleFc 200).1 ∧
    examplePost ∉
      PostQueue.load (check_queue_callback exampleFc 200 (fun _ => false)).1 ∧
    (check_queue_callback exampleFc 200 (fun _ => false)).2.2 =
      [examplePost] :=
  ⟨by decide, (poller_never_requeues exampleFc 200 (fun _ => false)
      (fun _ => true)).2.2 examplePost (by decide), by rfl⟩

/-- C6 counterexample: the write strategy of `PostQueue.save` is not
write-to-temp-then-rename — already for the empty queue, its file operations
are a single in-place truncating write of `queue.json` itself, with no
rename. -/
theorem save_not_atomic_counterexample :
    usesTempRename (PostQueue.saveOps []) QUEUE_FILE = false := by rfl

/-- C6 amended: `PostQueue.save` persists the queue with a single in-place
truncating write of `queue.json` (no temporary file, no rename); a crash
interrupting that write can leave the file unparseable, and a later load
treats the unparseable file as the empty queue (logged, never fatal), losing
the queued posts. -/
theorem save_writes_in_place (queue : List QueuedPost) (fc : FileContent) :
    usesTempRename (PostQueue.saveOps queue) QUEUE_FILE = false ∧
    PostQueue.saveOps queue =
      [FsOp.openTruncWrite QUEUE_FILE (encodeQueue queue)] ∧
    PostQueue.load
      (crashDuringWrite fc
        (FsOp.openTruncWrite QUEUE_FILE (encodeQueue queue))) = [] := by
  refine ⟨?_, rfl, ?_⟩
  · rfl
  · simp [crashDuringWrite, PostQueue.load]

/-- C7: every per-item operator action invoked while the session has no
current item reports the stale-session condition and mutates nothing: the
dedup store, the persisted queue, the session and the editing context are
all returned unchanged. -/
theorem stale_session_no_mutation (st : BotState) (action : BotAction)
    (genText : String) (slotTime : ℚ) (imgPath : Option String)
    (transportOk : Bool) (h : st.session.current_pack = none) :
    button_callback st action genText slotTime imgPath transportOk =
      (st, BotOutput.staleSession) := by
  unfold button_callback
  rw [h]

/-- A concrete bot state whose session has no current item. -/
def exampleStaleState : BotState :=
  { finder := ⟨[], ∅⟩, queueFc := FileContent.json (Json.arr []),
    session := UserSession.init, editing_pack := none }

/-- C7 witness: invoking the queue action on the stale state reports the
stale-session condition and returns the state unchanged. -/
theorem stale_session_no_mutation_witness :
    button_callback exampleStaleState BotAction.publish ("x") 0 none true =
      (exampleStaleState, BotOutput.staleSession) :=
  stale_session_no_mutation exampleStaleState BotAction.publish ("x") 0 none
    true rfl

/-- C10: when the delivery call of the publish-now action raises, the except
handler runs before the dedup mark and before the session advance: the whole
state — dedup store, persisted queue, session cursor, editing context — is
exactly as before the action, and the failure is surfaced to the operator. -/
theorem publish_now_failure_no_mutation (st : BotState) (pack : Modpack)
    (genText : String) (slotTime : ℚ) (imgPath : Option String)
    (h : st.session.current_pack = some pack) :
    button_callback st BotAction.publish_now genText slotTime imgPath false =
      (st, BotOutput.publishError) := by
  unfold button_callback
  rw [h]
  rfl

/-- A concrete bot state browsing the one-element result set
`[exampleModpack]`. -/
def exampleBrowsingState : BotState :=
  { finder := ⟨[], ∅⟩, queueFc := FileContent.json (Json.arr []),
    session := ⟨[exampleModpack], 0, some exampleModpack⟩,
    editing_pack := none }

/-- C10 witness: a failing publish-now on the browsing state reports the
failure and leaves the state — dedup store and session included —
unchanged. -/
theorem publish_now_failure_no_mutation_witness :
    button_callback exampleBrowsingState BotAction.publish_now ("x") 0 none
      false = (exampleBrowsingState, BotOutput.publishError) :=
  publish_now_failure_no_mutation exampleBrowsingState exampleModpack ("x") 0
    none rfl
